import Mathlib

/-!
Shallow embedding of the Blogicum blog application (Django), covering the
query/visibility layer (`blog/views.py`), the authorization gates
(`DispatchMixin`, `LoginRequiredMixin` ordering), the form bindings
(`blog/forms.py`) and the profile self-service view, together with proofs
of the behavioural claims about them.

Conventions of the embedding:
- Database rows are Lean structures; foreign keys are embedded records
  (`Post.author : User`, `Post.category : Option Category`), matching how the
  Django, ORM navigates them in the views.
- `timezone.now()` is an explicit `now : Int` parameter.
- A Django queryset `filter(...)` is `List.filter`, `get_object_or_404` is a
  `List.find?` whose `none` outcome is the NotFound (404) response.
- `order_by("-pub_date")` is an insertion sort descending by `pub_date`.
- HTTP outcomes of mutating views are the `Resp` type paired with the
  resulting database state.
-/

namespace Blogicum

/-- Modelled from the spec: the `User` identity entity (blog/models.py is not
part of the sources; §3 of the spec lists username (unique), first/last name,
email). `id` is the database primary key. -/
structure User where
  id : Nat
  username : String
  first_name : String
  last_name : String
  email : String
deriving DecidableEq

/-- Modelled from the spec: the `Category` model — title, description, unique
slug, `is_published` flag, `created_at`. -/
structure Category where
  id : Nat
  title : String
  description : String
  slug : String
  is_published : Bool
  created_at : Int
deriving DecidableEq

/-- Modelled from the spec: the `Post` model — title, text, publish timestamp
`pub_date`, author reference, optional category reference, optional location
reference, `is_published` flag, `created_at`. -/
structure Post where
  id : Nat
  title : String
  text : String
  pub_date : Int
  author : User
  category : Option Category
  location : Option Nat
  is_published : Bool
  created_at : Int
deriving DecidableEq

/-- Modelled from the spec: the `Comment` model — text, author reference,
parent post reference, `created_at`. -/
structure Comment where
  id : Nat
  text : String
  author : User
  postId : Nat
  created_at : Int
deriving DecidableEq

/-- The database state: all stored rows. -/
structure Blog where
  users : List User
  categories : List Category
  posts : List Post
  comments : List Comment
deriving DecidableEq

/-- The requester of a page: anonymous or an authenticated user
(`request.user`). -/
inductive Viewer where
  | anon
  | auth (u : User)
deriving DecidableEq

/-- The string form of `request.user` as Django's CharField lookup coerces it:
`str(AnonymousUser())` is "AnonymousUser", `str(user)` is the username. Used
by `PostDetailView.get_object`, whose filter is
`Q(author__username=self.request.user)`. -/
def Viewer.asText : Viewer → String
  | .anon => "AnonymousUser"
  | .auth u => u.username

/-- Whether the viewer is exactly this user, as `request.user == user`
evaluates in `DispatchMixin.dispatch` (an anonymous requester never equals a
stored author). -/
def Viewer.isUser : Viewer → User → Bool
  | .anon, _ => false
  | .auth w, u => w == u

/-- Outcome of a request, paired elsewhere with the resulting database. -/
inductive Resp where
  | notFound
  | redirectLogin
  | redirectPostDetail (pk : Nat)
  | redirectProfile (username : String)
  | ok
deriving DecidableEq

/-- The truth value of the ORM lookup `category__is_published=True` on a post:
a join through a null foreign key matches nothing, so a post without category
fails the lookup. -/
def postCategoryPublished (p : Post) : Bool :=
  match p.category with
  | some c => c.is_published
  | none => false

/-- Insert a post into a list kept in descending `pub_date` order. -/
def insertByDate (p : Post) : List Post → List Post
  | [] => [p]
  | q :: rest =>
    if q.pub_date ≤ p.pub_date then p :: q :: rest
    else q :: insertByDate p rest

/-- Sort posts by descending `pub_date` (`order_by("-pub_date")`). -/
def sortByDateDesc : List Post → List Post
  | [] => []
  | p :: rest => insertByDate p (sortByDateDesc rest)

/-- Descending-by-`pub_date` sortedness of a listing. -/
def DateSorted (l : List Post) : Prop :=
  l.Pairwise (fun a b => b.pub_date ≤ a.pub_date)

/-- The filter of `PostListView.get_queryset`:
`pub_date__lt=timezone.now(), is_published=True, category__is_published=True`. -/
def homeFilter (now : Int) (p : Post) : Bool :=
  decide (p.pub_date < now) && p.is_published && postCategoryPublished p

/-- `PostListView.get_queryset`: the public home listing, filtered as above and
ordered by descending `pub_date`. -/
def homePage (db : Blog) (now : Int) : List Post :=
  sortByDateDesc (db.posts.filter (homeFilter now))

/-- The queryset filter of `PostDetailView.get_object`:
`Q(is_published=True) | Q(author__username=self.request.user)`. -/
def postDetailVisible (v : Viewer) (p : Post) : Bool :=
  p.is_published || p.author.username == v.asText

/-- `PostDetailView.get_object`: `get_object_or_404` on the filtered queryset
by `pk`; `none` is the 404 outcome. -/
def postDetail (db : Blog) (v : Viewer) (pk : Nat) : Option Post :=
  (db.posts.filter (postDetailVisible v)).find? (fun p => p.id == pk)

/-- `CategoryListView.get_queryset`: `get_object_or_404(Category, slug=...,
is_published=True)`, then the posts of that category filtered by
`pub_date__lt=now, category__is_published=True, is_published=True`, ordered by
descending `pub_date`. `none` is the 404 outcome. -/
def categoryPage (db : Blog) (now : Int) (slug : String) : Option (List Post) :=
  match db.categories.find? (fun c => c.slug == slug && c.is_published) with
  | none => none
  | some c =>
    some (sortByDateDesc (db.posts.filter (fun p =>
      p.category == some c && decide (p.pub_date < now)
        && postCategoryPublished p && p.is_published)))

/-- `ProfileView.get_queryset`: `get_object_or_404(User, username=...)`, then
all posts with `author=self.author`, ordered by descending `pub_date`. The
viewer is not consulted. `none` is the 404 outcome. -/
def profilePage (db : Blog) (_v : Viewer) (uname : String) : Option (List Post) :=
  match db.users.find? (fun u => u.username == uname) with
  | none => none
  | some u =>
    some (sortByDateDesc (db.posts.filter (fun p => p.author == u)))

/-- The raw POST payload for a post form, including a client-supplied author
value that `PostForm` (with `exclude = ('author',)`) never binds. -/
structure RawPostInput where
  title : String
  text : String
  pub_date : Int
  category : Option Category
  location : Option Nat
  is_published : Bool
  author : Option User
deriving DecidableEq

/-- The fields `PostForm` actually binds: every editable model field except
the excluded `author` (and the non-editable `created_at`). -/
structure PostFormData where
  title : String
  text : String
  pub_date : Int
  category : Option Category
  location : Option Nat
  is_published : Bool
deriving DecidableEq

/-- `PostForm` binding: drops the client-supplied `author` value
(`exclude = ('author',)` in blog/forms.py). -/
def bindPostForm (raw : RawPostInput) : PostFormData :=
  { title := raw.title
    text := raw.text
    pub_date := raw.pub_date
    category := raw.category
    location := raw.location
    is_published := raw.is_published }

/-- Apply bound form data to a post instance (a `ModelForm` save updates
exactly the bound fields). -/
def applyPostForm (f : PostFormData) (p : Post) : Post :=
  { p with
    title := f.title
    text := f.text
    pub_date := f.pub_date
    category := f.category
    location := f.location
    is_published := f.is_published }

/-- A fresh primary key for an inserted post (auto-increment). -/
def freshPostId (db : Blog) : Nat :=
  db.posts.foldr (fun p m => max (p.id + 1) m) 0

/-- `PostCreateView`: `LoginRequiredMixin` redirects an anonymous requester to
the login page; otherwise the form is bound (dropping any client author) and
`form_valid` sets `instance.author = request.user` before saving; success
redirects to the requester's profile. `created_at` is auto-set to now. -/
def postCreate (db : Blog) (v : Viewer) (now : Int) (raw : RawPostInput) :
    Resp × Blog :=
  match v with
  | .anon => (.redirectLogin, db)
  | .auth u =>
    let f := bindPostForm raw
    let newPost : Post :=
      { id := freshPostId db
        title := f.title
        text := f.text
        pub_date := f.pub_date
        author := u
        category := f.category
        location := f.location
        is_published := f.is_published
        created_at := now }
    (.redirectProfile u.username, { db with posts := db.posts ++ [newPost] })

/-- `PostUpdateView`: MRO is `LoginRequiredMixin` then `DispatchMixin` then
`UpdateView`, so an anonymous requester is redirected to login BEFORE the
author check; then `get_object` (404 if absent), then `DispatchMixin` redirects
a non-author to the post's detail view; otherwise the form is applied and
`form_valid` re-assigns `instance.author = request.user`. The success response
is modelled as `ok` (its redirect target, `Post.get_absolute_url`, is outside
the sources and outside every claim). -/
def postUpdate (db : Blog) (v : Viewer) (pk : Nat) (raw : RawPostInput) :
    Resp × Blog :=
  match v with
  | .anon => (.redirectLogin, db)
  | .auth u =>
    match db.posts.find? (fun q => q.id == pk) with
    | none => (.notFound, db)
    | some p =>
      if p.author ≠ u then (.redirectPostDetail p.id, db)
      else
        (.ok, { db with posts := db.posts.map (fun q =>
          if q.id == pk then
            { applyPostForm (bindPostForm raw) q with author := u }
          else q) })

/-- `PostDeleteView`: same `LoginRequiredMixin`-then-`DispatchMixin` gating as
`PostUpdateView`; on success the post row is deleted (success redirect to the
home listing is modelled as `ok`). -/
def postDelete (db : Blog) (v : Viewer) (pk : Nat) : Resp × Blog :=
  match v with
  | .anon => (.redirectLogin, db)
  | .auth u =>
    match db.posts.find? (fun q => q.id == pk) with
    | none => (.notFound, db)
    | some p =>
      if p.author ≠ u then (.redirectPostDetail p.id, db)
      else
        (.ok, { db with posts := db.posts.filter (fun q => !(q.id == pk)) })

/-- The raw POST payload for a comment form; `CommentForm` has
`fields = ('text',)`, so the other entries are never bound. -/
structure RawCommentInput where
  text : String
  author : Option User
  postId : Option Nat
  created_at : Option Int
deriving DecidableEq

/-- `CommentUpdateView`: MRO is `CommentMixin` then `DispatchMixin` then
`LoginRequiredMixin` then `UpdateView`, so `DispatchMixin.dispatch` runs
first: `CommentMixin.get_object` looks the comment up by
`(pk=comment_pk, post_id=post_pk)` (404 on mismatch); then a requester that is
not the comment's author — including an anonymous requester — is redirected to
`blog:post_detail` with `pk = self.get_object().pk`, i.e. the COMMENT's pk.
On success only `text` is bound and saved, and `CommentMixin.get_success_url`
redirects to the detail view of `post_pk`. -/
def commentUpdate (db : Blog) (v : Viewer) (postPk commentPk : Nat)
    (raw : RawCommentInput) : Resp × Blog :=
  match db.comments.find? (fun d => d.id == commentPk && d.postId == postPk) with
  | none => (.notFound, db)
  | some c =>
    if v.isUser c.author then
      (.redirectPostDetail postPk, { db with comments := db.comments.map (fun d =>
        if d.id == commentPk then { d with text := raw.text } else d) })
    else (.redirectPostDetail c.id, db)

/-- `CommentDeleteView`: same lookup and gating as `CommentUpdateView`; on
success the comment row is deleted and the requester is redirected to the
detail view of `post_pk`. -/
def commentDelete (db : Blog) (v : Viewer) (postPk commentPk : Nat) :
    Resp × Blog :=
  match db.comments.find? (fun d => d.id == commentPk && d.postId == postPk) with
  | none => (.notFound, db)
  | some c =>
    if v.isUser c.author then
      (.redirectPostDetail postPk, { db with comments := db.comments.filter (fun d =>
        !(d.id == commentPk)) })
    else (.redirectPostDetail c.id, db)

/-- The identity fields bound by `ProfileUpdateView`
(`fields = ["username", "first_name", "last_name", "email"]`). -/
structure ProfileFormInput where
  username : String
  first_name : String
  last_name : String
  email : String
deriving DecidableEq

/-- Apply the bound profile form to a user row. -/
def applyProfileForm (f : ProfileFormInput) (u : User) : User :=
  { u with
    username := f.username
    first_name := f.first_name
    last_name := f.last_name
    email := f.email }

/-- `ProfileUpdateView`: `LoginRequiredMixin` redirects an anonymous requester
to login; `get_object` fetches the user named by the PATH parameter (404 if
absent) with no check against `request.user`; `form_valid` saves the fetched
row and redirects to the profile of the (possibly new) username. -/
def profileUpdate (db : Blog) (v : Viewer) (pathUsername : String)
    (f : ProfileFormInput) : Resp × Blog :=
  match v with
  | .anon => (.redirectLogin, db)
  | .auth _ =>
    match db.users.find? (fun u => u.username == pathUsername) with
    | none => (.notFound, db)
    | some target =>
      (.redirectProfile f.username, { db with users := db.users.map (fun u =>
        if u.id == target.id then applyProfileForm f u else u) })

/-- Sample user alice. -/
def uAlice : User :=
  { id := 1, username := "alice", first_name := "Alice", last_name := "A",
    email := "alice@example.com" }

/-- Sample user bob. -/
def uBob : User :=
  { id := 2, username := "bob", first_name := "Bob", last_name := "B",
    email := "bob@example.com" }

/-- A registered user whose chosen username happens to be the string Django
prints for an anonymous requester. -/
def uAnonName : User :=
  { id := 3, username := "AnonymousUser", first_name := "", last_name := "",
    email := "" }

/-- Sample published category. -/
def catNews : Category :=
  { id := 1, title := "News", description := "news category", slug := "news",
    is_published := true, created_at := 0 }

/-- A published, categorised post whose `pub_date` equals the current time 5. -/
def pBoundary : Post :=
  { id := 1, title := "boundary", text := "body", pub_date := 5,
    author := uAlice, category := some catNews, location := none,
    is_published := true, created_at := 0 }

/-- A published post without a category. -/
def pNoCat : Post :=
  { id := 2, title := "nocat", text := "body", pub_date := 1,
    author := uAlice, category := none, location := none,
    is_published := true, created_at := 0 }

/-- Database for the home-listing boundary cases. -/
def dbHome : Blog :=
  { users := [uAlice], categories := [catNews], posts := [pBoundary, pNoCat],
    comments := [] }

/-- An unpublished post authored by the user named "AnonymousUser". -/
def pHidden : Post :=
  { id := 1, title := "hidden", text := "body", pub_date := 1,
    author := uAnonName, category := some catNews, location := none,
    is_published := false, created_at := 0 }

/-- Database for the detail-view anonymous-name case. -/
def dbAnon : Blog :=
  { users := [uAnonName], categories := [catNews], posts := [pHidden],
    comments := [] }

/-- A published post authored by alice. -/
def pAlice : Post :=
  { id := 1, title := "t", text := "b", pub_date := 1, author := uAlice,
    category := some catNews, location := none, is_published := true,
    created_at := 0 }

/-- Database with alice's post and both users. -/
def dbPosts : Blog :=
  { users := [uAlice, uBob], categories := [catNews], posts := [pAlice],
    comments := [] }

/-- A sample raw post form payload. -/
def rawP : RawPostInput :=
  { title := "new title", text := "new body", pub_date := 2, category := none,
    location := none, is_published := true, author := none }

/-- Database with only the two users. -/
def dbUsers : Blog :=
  { users := [uAlice, uBob], categories := [], posts := [], comments := [] }

/-- A profile form payload addressed at bob's row. -/
def rawProfile : ProfileFormInput :=
  { username := "bob", first_name := "Bobby", last_name := "B",
    email := "new@example.com" }

/-- A published post in the news category, `pub_date` in the past. -/
def pOld : Post :=
  { id := 1, title := "old", text := "b", pub_date := 4, author := uAlice,
    category := some catNews, location := none, is_published := true,
    created_at := 0 }

/-- An unpublished post in the news category. -/
def pUnpub : Post :=
  { id := 2, title := "unpub", text := "b", pub_date := 4, author := uAlice,
    category := some catNews, location := none, is_published := false,
    created_at := 0 }

/-- A published post in the news category with `pub_date` equal to now = 5. -/
def pNow : Post :=
  { id := 3, title := "at-now", text := "b", pub_date := 5, author := uAlice,
    category := some catNews, location := none, is_published := true,
    created_at := 0 }

/-- Database for the category-listing cases. -/
def dbCat : Blog :=
  { users := [uAlice], categories := [catNews], posts := [pOld, pUnpub, pNow],
    comments := [] }

/-- Bob's post with id 3. -/
def pBob3 : Post :=
  { id := 3, title := "bob post", text := "b", pub_date := 1, author := uBob,
    category := some catNews, location := none, is_published := true,
    created_at := 0 }

/-- Bob's comment with id 7 on post 3. Its id differs from its post's id. -/
def cSample : Comment :=
  { id := 7, text := "hi", author := uBob, postId := 3, created_at := 0 }

/-- Database for the comment-mutation cases. -/
def dbComments : Blog :=
  { users := [uAlice, uBob], categories := [catNews], posts := [pBob3],
    comments := [cSample] }

/-- A sample raw comment form payload. -/
def rawC : RawCommentInput :=
  { text := "edited text", author := none, postId := none, created_at := none }

theorem mem_insertByDate {a p : Post} {l : List Post} :
    a ∈ insertByDate p l ↔ a = p ∨ a ∈ l := by
  induction l with
  | nil => simp [insertByDate]
  | cons q t ih =>
    by_cases h : q.pub_date ≤ p.pub_date
    · simp [insertByDate, h]
    · simp [insertByDate, h, ih]
      tauto

theorem mem_sortByDateDesc {a : Post} {l : List Post} :
    a ∈ sortByDateDesc l ↔ a ∈ l := by
  induction l with
  | nil => simp [sortByDateDesc]
  | cons q t ih => simp [sortByDateDesc, mem_insertByDate, ih]

theorem dateSorted_insertByDate (p : Post) {l : List Post}
    (h : DateSorted l) : DateSorted (insertByDate p l) := by
  induction l with
  | nil => simp [insertByDate, DateSorted]
  | cons q t ih =>
    rw [DateSorted, List.pairwise_cons] at h
    by_cases hpq : q.pub_date ≤ p.pub_date
    · rw [DateSorted]
      simp only [insertByDate, if_pos hpq, List.pairwise_cons]
      refine ⟨?_, h.1, h.2⟩
      intro b hb
      rcases List.mem_cons.mp hb with rfl | hbt
      · exact hpq
      · exact le_trans (h.1 b hbt) hpq
    · rw [DateSorted]
      simp only [insertByDate, if_neg hpq, List.pairwise_cons]
      have hq : p.pub_date ≤ q.pub_date := le_of_lt (lt_of_not_le hpq)
      refine ⟨?_, ih h.2⟩
      intro b hb
      rcases mem_insertByDate.mp hb with rfl | hbt
      · exact hq
      · exact h.1 b hbt

theorem dateSorted_sort (l : List Post) : DateSorted (sortByDateDesc l) := by
  induction l with
  | nil => simp [sortByDateDesc, DateSorted]
  | cons q t ih => exact dateSorted_insertByDate q ih

theorem find?_map_invariant {α : Type} (g : α → α) (p : α → Bool)
    (hg : ∀ a, p (g a) = p a) :
    ∀ (l : List α) (a : α), l.find? p = some a →
      (l.map g).find? p = some (g a) := by
  intro l
  induction l with
  | nil => intro a h; simp [List.find?] at h
  | cons b t ih =>
    intro a h
    cases hpb : p b
    · rw [List.find?_cons_of_neg _ (by simp [hpb])] at h
      rw [List.map_cons, List.find?_cons_of_neg _ (by simp [hg, hpb])]
      exact ih a h
    · rw [List.find?_cons_of_pos _ hpb] at h
      cases h
      rw [List.map_cons, List.find?_cons_of_pos _ (by rw [hg]; exact hpb)]

/-- C1 (amended): a post appears in the public home listing iff it is stored,
`is_published` is true, its `pub_date` is STRICTLY before the current time
(the view filters with `pub_date__lt`), and its category is present and
published (the `category__is_published=True` lookup excludes posts without a
category); the listing is ordered descending by `pub_date`. -/
theorem C1_public_listing (db : Blog) (now : Int) :
    (∀ p : Post, p ∈ homePage db now ↔
      p ∈ db.posts ∧ p.is_published = true ∧ p.pub_date < now
        ∧ postCategoryPublished p = true)
    ∧ DateSorted (homePage db now) := by
  constructor
  · intro p
    rw [homePage, mem_sortByDateDesc, List.mem_filter]
    simp only [homeFilter, Bool.and_eq_true, decide_eq_true_eq]
    tauto
  · exact dateSorted_sort _

/-- C1 counterexample: `pBoundary` (published, published category,
`pub_date` equal to the current time 5) and `pNoCat` (published, no category,
past `pub_date`) both satisfy the claim's inclusion condition
(`is_published ∧ pub_date ≤ now ∧ (category null ∨ category published)`) yet
neither appears in the home listing the code produces. -/
theorem C1_cex :
    (pBoundary.is_published = true ∧ pBoundary.pub_date ≤ 5
      ∧ pBoundary.category = some catNews ∧ catNews.is_published = true
      ∧ pBoundary ∈ dbHome.posts ∧ pBoundary ∉ homePage dbHome 5)
    ∧ (pNoCat.is_published = true ∧ pNoCat.pub_date ≤ 5
      ∧ pNoCat.category = none
      ∧ pNoCat ∈ dbHome.posts ∧ pNoCat ∉ homePage dbHome 5) := by
  decide

/-- C2 (amended): the single-post detail view succeeds iff some stored post
has the requested identifier and is published, or its author's username equals
the textual form of the viewer (the username for an authenticated viewer, the
literal string "AnonymousUser" for an anonymous one — the view filters with
`Q(author__username=self.request.user)`); otherwise it fails with NotFound. -/
theorem C2_post_detail (db : Blog) (v : Viewer) (pk : Nat) :
    (postDetail db v pk).isSome = true ↔
      ∃ p, p ∈ db.posts ∧ p.id = pk
        ∧ (p.is_published = true ∨ p.author.username = v.asText) := by
  simp only [postDetail, List.find?_isSome, List.mem_filter, postDetailVisible,
    Bool.or_eq_true, Bool.and_eq_true, beq_iff_eq]
  constructor
  · rintro ⟨p, ⟨hp, hvis⟩, hpk⟩
    exact ⟨p, hp, hpk, hvis⟩
  · rintro ⟨p, hp, hpk, hvis⟩
    exact ⟨p, ⟨hp, hvis⟩, hpk⟩

/-- C2 counterexample: an anonymous viewer retrieves the unpublished post
`pHidden`, because its author's username is "AnonymousUser" — the claim says
an unpublished post is never visible to an anonymous viewer. -/
theorem C2_cex :
    postDetail dbAnon Viewer.anon 1 = some pHidden
      ∧ pHidden.is_published = false := by
  decide

/-- C5: creating a post as an authenticated requester appends a post whose
author is the requester, and the result is identical for raw inputs differing
only in the client-supplied author value (`PostForm` excludes `author` and
`form_valid` overwrites it with `request.user`). -/
theorem C5_create_author (db : Blog) (u : User) (now : Int)
    (raw : RawPostInput) (a : Option User) :
    (postCreate db (Viewer.auth u) now raw).2.posts
      = db.posts ++ [{ id := freshPostId db
                       title := raw.title
                       text := raw.text
                       pub_date := raw.pub_date
                       author := u
                       category := raw.category
                       location := raw.location
                       is_published := raw.is_published
                       created_at := now }]
    ∧ postCreate db (Viewer.auth u) now raw
      = postCreate db (Viewer.auth u) now { raw with author := a } :=
  ⟨rfl, rfl⟩

/-- C3 (amended): for a stored post and an AUTHENTICATED viewer that is not
the post's author, both the edit and the delete request redirect to the post's
read-only detail view and leave the database unchanged (an anonymous viewer is
instead redirected to the login page by `LoginRequiredMixin`, which runs
before `DispatchMixin` on the post views, also without mutation). -/
theorem C3_non_author_redirect (db : Blog) (u : User) (p : Post) (pk : Nat)
    (raw : RawPostInput)
    (hfind : db.posts.find? (fun q => q.id == pk) = some p)
    (hne : p.author ≠ u) :
    postUpdate db (Viewer.auth u) pk raw = (Resp.redirectPostDetail p.id, db)
      ∧ postDelete db (Viewer.auth u) pk = (Resp.redirectPostDetail p.id, db) := by
  constructor
  · simp only [postUpdate, hfind]
    rw [if_pos hne]
  · simp only [postDelete, hfind]
    rw [if_pos hne]

/-- C3 counterexample: the anonymous viewer is not the author of `pAlice`,
yet an edit or delete request by it is answered with a redirect to the login
page, not with a redirect to the post's detail view as the claim states for
every non-author viewer. -/
theorem C3_cex :
    postUpdate dbPosts Viewer.anon 1 rawP = (Resp.redirectLogin, dbPosts)
      ∧ postDelete dbPosts Viewer.anon 1 = (Resp.redirectLogin, dbPosts)
      ∧ pAlice ∈ dbPosts.posts ∧ pAlice.id = 1
      ∧ Resp.redirectLogin ≠ Resp.redirectPostDetail pAlice.id := by
  decide

/-- C3 witness: authenticated bob on alice's post is redirected to the detail
view of the post, with the database unchanged. -/
theorem C3_witness :
    (dbPosts.posts.find? (fun q => q.id == 1) = some pAlice
      ∧ pAlice.author ≠ uBob)
    ∧ (postUpdate dbPosts (Viewer.auth uBob) 1 rawP
        = (Resp.redirectPostDetail pAlice.id, dbPosts)
      ∧ postDelete dbPosts (Viewer.auth uBob) 1
        = (Resp.redirectPostDetail pAlice.id, dbPosts)) :=
  ⟨⟨by decide, by decide⟩,
   C3_non_author_redirect dbPosts uBob pAlice 1 rawP (by decide) (by decide)⟩

/-- C6: when the named user exists, the profile listing is defined and
contains exactly the stored posts authored by that user — whatever their
publish flags — ordered descending by `pub_date`; the viewer is never
consulted. -/
theorem C6_profile_listing (db : Blog) (v : Viewer) (uname : String) (u : User)
    (hu : db.users.find? (fun w => w.username == uname) = some u) :
    ∃ l, profilePage db v uname = some l
      ∧ (∀ p : Post, p ∈ l ↔ p ∈ db.posts ∧ p.author = u)
      ∧ DateSorted l := by
  refine ⟨sortByDateDesc (db.posts.filter (fun p => p.author == u)),
    ?_, ?_, dateSorted_sort _⟩
  · simp only [profilePage, hu]
  · intro p
    rw [mem_sortByDateDesc, List.mem_filter]
    simp only [beq_iff_eq]

/-- C6 witness: the profile listing of alice in the sample database. -/
theorem C6_witness :
    ∃ l, profilePage dbPosts Viewer.anon "alice" = some l
      ∧ (∀ p : Post, p ∈ l ↔ p ∈ dbPosts.posts ∧ p.author = uAlice)
      ∧ DateSorted l :=
  C6_profile_listing dbPosts Viewer.anon "alice" uAlice (by decide)

/-- C7 (amended): the category listing fails with NotFound exactly when no
stored category has the requested slug with `is_published=true`; when one
does, the listing contains exactly the stored posts of that category with
`is_published=true` and `pub_date` STRICTLY before the current time (the view
filters with `pub_date__lt`), ordered descending by `pub_date`. -/
theorem C7_category_listing (db : Blog) (now : Int) (slug : String) :
    ((categoryPage db now slug).isNone = true ↔
      db.categories.find? (fun c => c.slug == slug && c.is_published) = none)
    ∧ ∀ c, db.categories.find? (fun c => c.slug == slug && c.is_published)
        = some c →
        ∃ l, categoryPage db now slug = some l
          ∧ (∀ p : Post, p ∈ l ↔ p ∈ db.posts ∧ p.category = some c
              ∧ p.is_published = true ∧ p.pub_date < now)
          ∧ DateSorted l := by
  constructor
  · cases hc : db.categories.find? (fun c => c.slug == slug && c.is_published) with
    | none => simp [categoryPage, hc]
    | some c => simp [categoryPage, hc]
  · intro c hc
    have hcp : c.is_published = true := by
      have := List.find?_some hc
      simp only [Bool.and_eq_true] at this
      exact this.2
    refine ⟨sortByDateDesc (db.posts.filter (fun p =>
        p.category == some c && decide (p.pub_date < now)
          && postCategoryPublished p && p.is_published)),
      by simp only [categoryPage, hc], ?_, dateSorted_sort _⟩
    intro p
    rw [mem_sortByDateDesc, List.mem_filter]
    simp only [Bool.and_eq_true, beq_iff_eq, decide_eq_true_eq]
    constructor
    · rintro ⟨hp, ⟨⟨hcat, hlt⟩, _hcpp⟩, hpub⟩
      exact ⟨hp, hcat, hpub, hlt⟩
    · rintro ⟨hp, hcat, hpub, hlt⟩
      exact ⟨hp, ⟨⟨hcat, hlt⟩, by simp [postCategoryPublished, hcat, hcp]⟩, hpub⟩

/-- C7 counterexample: in the published category "news" at current time 5,
`pNow` is published, belongs to the published category, and has
`pub_date ≤ 5`, yet the listing the code produces is `[pOld]` and omits it
(its `pub_date` equals the current time and the filter is strict). -/
theorem C7_cex :
    categoryPage dbCat 5 "news" = some [pOld]
      ∧ pNow ∈ dbCat.posts ∧ pNow.is_published = true ∧ pNow.pub_date ≤ 5
      ∧ pNow.category = some catNews ∧ catNews.is_published = true
      ∧ pNow ∉ [pOld] := by
  decide

/-- C7 witness: the missing slug "sports" yields NotFound, and the listing of
the published category "news" at time 5. -/
theorem C7_witness :
    ((categoryPage dbCat 5 "sports").isNone = true ↔
      dbCat.categories.find? (fun c => c.slug == "sports" && c.is_published)
        = none)
    ∧ (∃ l, categoryPage dbCat 5 "news" = some l
        ∧ (∀ p : Post, p ∈ l ↔ p ∈ dbCat.posts ∧ p.category = some catNews
            ∧ p.is_published = true ∧ p.pub_date < 5)
        ∧ DateSorted l) :=
  ⟨(C7_category_listing dbCat 5 "sports").1,
   (C7_category_listing dbCat 5 "news").2 catNews (by decide)⟩

/-- C4 (code bug, exhibited): authenticated alice submits the profile-update
form with bob's username in the path, and bob's stored row is mutated — his
email changes — although alice and bob are different users. The view's
`get_object` trusts the path parameter and never compares it with
`request.user`. -/
theorem C4_cross_user_update_bug :
    profileUpdate dbUsers (Viewer.auth uAlice) "bob" rawProfile
      = (Resp.redirectProfile "bob",
         { dbUsers with users := [uAlice, applyProfileForm rawProfile uBob] })
    ∧ (applyProfileForm rawProfile uBob).email ≠ uBob.email
    ∧ uAlice ≠ uBob := by
  decide

/-- C8 (code bug, exhibited): alice (authenticated, not the comment's author)
requests edit or delete of comment 7 on post 3; she is redirected — without
mutation — but to the detail view of post 7 (`DispatchMixin` redirects with
`pk = self.get_object().pk`, the COMMENT's primary key), not to the detail
view of the stated post 3 as the spec requires. -/
theorem C8_comment_redirect_bug :
    commentUpdate dbComments (Viewer.auth uAlice) 3 7 rawC
        = (Resp.redirectPostDetail 7, dbComments)
      ∧ commentDelete dbComments (Viewer.auth uAlice) 3 7
        = (Resp.redirectPostDetail 7, dbComments)
      ∧ cSample.postId = 3 ∧ cSample.id = 7 ∧ (7 : Nat) ≠ 3
      ∧ uAlice ≠ cSample.author := by
  decide

/-- C9: a successful post edit leaves the post's author unchanged — the post
stored at the edited identifier afterwards is the form-updated post with its
ORIGINAL author (the authorization gate admits only the author, and
`form_valid` re-assigns `author = request.user`, who is that author). -/
theorem C9_edit_preserves_author (db : Blog) (u : User) (pk : Nat)
    (raw : RawPostInput) (p : Post)
    (hfind : db.posts.find? (fun q => q.id == pk) = some p)
    (hok : (postUpdate db (Viewer.auth u) pk raw).1 = Resp.ok) :
    (postUpdate db (Viewer.auth u) pk raw).2.posts.find? (fun q => q.id == pk)
      = some { applyPostForm (bindPostForm raw) p with author := p.author } := by
  by_cases hau : p.author = u
  · have hpk : (p.id == pk) = true := by
      simpa using List.find?_some hfind
    have heq : (postUpdate db (Viewer.auth u) pk raw).2.posts
        = db.posts.map (fun q =>
            if q.id == pk then
              { applyPostForm (bindPostForm raw) q with author := u }
            else q) := by
      simp only [postUpdate, hfind]
      rw [if_neg (by simp [hau])]
    have hmap := find?_map_invariant
      (fun q =>
        if q.id == pk then
          { applyPostForm (bindPostForm raw) q with author := u }
        else q)
      (fun q => q.id == pk)
      (fun q => by by_cases h : (q.id == pk) = true <;> simp [h, applyPostForm])
      db.posts p hfind
    rw [heq, hmap]
    simp [hpk, hau]
  · exfalso
    simp only [postUpdate, hfind] at hok
    rw [if_pos hau] at hok
    simp at hok

/-- C9 witness: alice successfully edits her own post and the stored post
afterwards carries her as author, as before the edit. -/
theorem C9_witness :
    (dbPosts.posts.find? (fun q => q.id == 1) = some pAlice
      ∧ (postUpdate dbPosts (Viewer.auth uAlice) 1 rawP).1 = Resp.ok)
    ∧ (postUpdate dbPosts (Viewer.auth uAlice) 1 rawP).2.posts.find?
        (fun q => q.id == 1)
        = some { applyPostForm (bindPostForm rawP) pAlice with
                   author := pAlice.author } :=
  ⟨⟨by decide, by decide⟩,
   C9_edit_preserves_author dbPosts uAlice 1 rawP pAlice (by decide) (by decide)⟩

/-- C10: a successful comment edit by the comment's author redirects to the
stated post's detail view, and the stored comment afterwards is the original
comment with ONLY its `text` replaced — author, parent post and `created_at`
are untouched, whatever else the raw input carried (`CommentForm` binds only
the field `text`). -/
theorem C10_comment_edit_frame (db : Blog) (u : User) (postPk commentPk : Nat)
    (raw : RawCommentInput) (c : Comment)
    (hfind : db.comments.find?
      (fun d => d.id == commentPk && d.postId == postPk) = some c)
    (hauth : c.author = u) :
    (commentUpdate db (Viewer.auth u) postPk commentPk raw).1
        = Resp.redirectPostDetail postPk
      ∧ (commentUpdate db (Viewer.auth u) postPk commentPk raw).2.comments.find?
          (fun d => d.id == commentPk && d.postId == postPk)
          = some { c with text := raw.text } := by
  have hgate : Viewer.isUser (Viewer.auth u) c.author = true := by
    simp [Viewer.isUser, hauth]
  have hc : (c.id == commentPk && c.postId == postPk) = true := by
    simpa using List.find?_some hfind
  have hcid : (c.id == commentPk) = true := by
    simp only [Bool.and_eq_true] at hc
    exact hc.1
  constructor
  · simp only [commentUpdate, hfind]
    rw [if_pos hgate]
  · have heq : (commentUpdate db (Viewer.auth u) postPk commentPk raw).2.comments
        = db.comments.map (fun d =>
            if d.id == commentPk then { d with text := raw.text } else d) := by
      simp only [commentUpdate, hfind]
      rw [if_pos hgate]
    have hmap := find?_map_invariant
      (fun d => if d.id == commentPk then { d with text := raw.text } else d)
      (fun d => d.id == commentPk && d.postId == postPk)
      (fun d => by by_cases h : (d.id == commentPk) = true <;> simp [h])
      db.comments c hfind
    rw [heq, hmap]
    simp [hcid]

/-- C10 witness: bob edits his own comment 7 on post 3; the stored comment
afterwards differs from the original only in its text. -/
theorem C10_witness :
    (dbComments.comments.find? (fun d => d.id == 7 && d.postId == 3)
        = some cSample
      ∧ cSample.author = uBob)
    ∧ ((commentUpdate dbComments (Viewer.auth uBob) 3 7 rawC).1
        = Resp.redirectPostDetail 3
      ∧ (commentUpdate dbComments (Viewer.auth uBob) 3 7 rawC).2.comments.find?
          (fun d => d.id == 7 && d.postId == 3)
          = some { cSample with text := rawC.text }) :=
  ⟨⟨by decide, by decide⟩,
   C10_comment_edit_frame dbComments uBob 3 7 rawC cSample (by decide) (by decide)⟩

end Blogicum
